import Mathlib

/-
Verification of the rtm package (Slack real-time messaging client),
a shallow embedding of src/rtm/rtm.go.

Inbound frames are decoded by json.Unmarshal into a dynamic value
(interface in Go); we model that decoded form with the JSON inductive.
Byte strings are modelled as List Nat.
-/

set_option maxRecDepth 10000

/-- Decoded JSON values, the shallow embedding of the dynamic value that
json.Unmarshal produces for an inbound frame (Go interface values). An
object is an association list of fields; lookup finds the first binding,
matching the unique-key maps json.Unmarshal produces. -/
inductive JSON where
  | null
  | bool (b : Bool)
  | num (n : Int)
  | str (s : String)
  | arr (elems : List JSON)
  | obj (fields : List (String × JSON))

/-- Field access on a decoded JSON object, the embedding of indexing a Go
map decoded from JSON (none when the key is absent, as a nil interface). -/
def lookupField (fields : List (String × JSON)) (k : String) : Option JSON :=
  (fields.find? (fun kv => kv.1 == k)).map (fun kv => kv.2)

/-- eventHandler wraps registered event handlers with the registered
pattern, as in rtm.go lines 40-43. The Handler interface value is the
type parameter H. -/
structure eventHandler (H : Type) where
  handler : H
  pattern : String

/-- ServeMux (rtm.go lines 49-52): the routing table from pattern to
registered eventHandler. The Go map is embedded as a function with
update, which is exactly its observable semantics; the mutex guards are
not observable in the sequential embedding. -/
structure ServeMux (H : Type) where
  m : String → Option (eventHandler H)

/-- NewServeMux (rtm.go lines 23-25): a mux with an empty table. -/
def NewServeMux {H : Type} : ServeMux H :=
  ⟨fun _ => none⟩

/-- ServeMux.Handle (rtm.go lines 56-62): store the handler under the
pattern, replacing any previous entry for the same pattern (Go map
assignment). -/
def ServeMux.Handle {H : Type} (mux : ServeMux H) (pattern : String) (handler : H) :
    ServeMux H :=
  ⟨fun p => if p = pattern then some ⟨handler, pattern⟩ else mux.m p⟩

/-- ServeMux.Handler (rtm.go lines 76-88): extract the "type" field of the
event via the unchecked assertions
event.(map[string]interface)["type"].(string) and look it up. The Go
type assertions panic when the event is not a string-keyed map or the
"type" field is absent or not a string; a panic is embedded as
Except.error. On a lookup miss it returns (nil, ""). -/
def ServeMux.Handler {H : Type} (mux : ServeMux H) (event : JSON) :
    Except String (Option H × String) :=
  match event with
  | .obj fields =>
    match lookupField fields "type" with
    | some (.str eType) =>
      match mux.m eType with
      | some e => .ok (some e.handler, e.pattern)
      | none => .ok (none, "")
    | some _ => .error "interface conversion: type field is not a string"
    | none => .error "interface conversion: missing type field"
  | _ => .error "interface conversion: event is not a string-keyed map"

/-- ServeMux.HandleEvent (rtm.go lines 92-98): resolve the handler and,
when one is found, invoke it. The embedding reports which handler was
invoked (some h) or that none was (none); a type-assertion panic inside
Handler propagates. -/
def ServeMux.HandleEvent {H : Type} (mux : ServeMux H) (event : JSON) :
    Except String (Option H) :=
  match mux.Handler event with
  | .error e => .error e
  | .ok (some h, _) => .ok (some h)
  | .ok (none, _) => .ok none

/-- Registration sequences: apply ServeMux.Handle for each (pattern,
handler) pair in order. -/
def applyRegs {H : Type} (mux : ServeMux H) : List (String × H) → ServeMux H
  | [] => mux
  | (p, h) :: rs => applyRegs (mux.Handle p h) rs

/-- The handler most recently registered for a pattern in a registration
sequence; follows the words of the spec ("the most recent registration
for a given pattern wins"), to be compared against the mux built from
the source. -/
def lastReg {H : Type} : List (String × H) → String → Option H
  | [], _ => none
  | (q, h) :: rs, p =>
    match lastReg rs p with
    | some x => some x
    | none => if q = p then some h else none

theorem applyRegs_m {H : Type} (regs : List (String × H)) (mux : ServeMux H) (p : String) :
    (applyRegs mux regs).m p =
      match lastReg regs p with
      | some h => some ⟨h, p⟩
      | none => mux.m p := by
  induction regs generalizing mux with
  | nil => rfl
  | cons qh rs ih =>
    obtain ⟨q, h⟩ := qh
    rw [applyRegs, ih, lastReg]
    cases hl : lastReg rs p with
    | some x => rfl
    | none =>
      by_cases hqp : q = p
      · subst hqp
        simp [ServeMux.Handle]
      · have hne : ¬ p = q := fun hpq => hqp hpq.symm
        simp [ServeMux.Handle, hne, hqp]

/-- C4: for every sequence of ServeMux.Handle(pattern, handler) calls and
every event whose "type" field equals a registered pattern,
ServeMux.Handler resolves to exactly the handler most recently registered
for that pattern (later registration for the same pattern replaces the
earlier one), and dispatch via HandleEvent invokes only that latest
handler. -/
theorem c4_latest_registration_wins {H : Type} (regs : List (String × H)) (p : String)
    (h : H) (fields : List (String × JSON))
    (hty : lookupField fields "type" = some (.str p))
    (hlast : lastReg regs p = some h) :
    ServeMux.Handler (applyRegs NewServeMux regs) (.obj fields) = .ok (some h, p) ∧
    ServeMux.HandleEvent (applyRegs NewServeMux regs) (.obj fields) = .ok (some h) := by
  have hm : (applyRegs (NewServeMux : ServeMux H) regs).m p = some ⟨h, p⟩ := by
    rw [applyRegs_m, hlast]
  constructor
  · simp [ServeMux.Handler, hty, hm]
  · simp [ServeMux.HandleEvent, ServeMux.Handler, hty, hm]

/-- Witness for C4 at a concrete registration sequence: two registrations
for pattern "a"; the later one (handler 3) wins. -/
theorem c4_latest_registration_wins_witness :
    ServeMux.Handler (applyRegs NewServeMux [("a", 1), ("b", 2), ("a", 3)])
      (.obj [("type", .str "a")]) = .ok (some 3, "a") ∧
    ServeMux.HandleEvent (applyRegs NewServeMux [("a", 1), ("b", 2), ("a", 3)])
      (.obj [("type", .str "a")]) = .ok (some 3) :=
  c4_latest_registration_wins [("a", 1), ("b", 2), ("a", 3)] "a" 3
    [("type", .str "a")] rfl rfl

/-- C7: for every event whose string "type" field has no registered
pattern in the ServeMux, HandleEvent invokes no handler and raises no
error (the event is silently dropped), and ServeMux.Handler returns a nil
handler and empty pattern for such an event. (Handler and HandleEvent
perform no mutation of the table in rtm.go, which the embedding mirrors
by making them pure readers of the mux.) -/
theorem c7_routing_miss {H : Type} (mux : ServeMux H) (fields : List (String × JSON))
    (p : String)
    (hty : lookupField fields "type" = some (.str p))
    (hmiss : mux.m p = none) :
    ServeMux.Handler mux (.obj fields) = .ok (none, "") ∧
    ServeMux.HandleEvent mux (.obj fields) = .ok none := by
  constructor
  · simp [ServeMux.Handler, hty, hmiss]
  · simp [ServeMux.HandleEvent, ServeMux.Handler, hty, hmiss]

/-- Witness for C7: an event of type "zzz" against the empty mux. -/
theorem c7_routing_miss_witness :
    ServeMux.Handler ((NewServeMux : ServeMux Nat)) (.obj [("type", .str "zzz")]) = .ok (none, "") ∧
    ServeMux.HandleEvent ((NewServeMux : ServeMux Nat)) (.obj [("type", .str "zzz")]) = .ok none :=
  c7_routing_miss NewServeMux [("type", .str "zzz")] "zzz" rfl rfl

/-- HandlerB is the behaviour of a Handler value during dispatch: its
HandleEvent either returns normally (ok) or panics (error, carrying the
panic message). rtm.go contains no recover, so in the embedding a panic
propagates as the error of an Except. -/
def HandlerB : Type := JSON → Except String Unit

/-- Dispatch of one event through a mux of concrete handler behaviours:
ServeMux.HandleEvent resolves the handler and invokes it (rtm.go lines
92-98); invocation of a behaviour runs it. A panic in the type assertion
or in the handler body propagates to the caller, since neither
ServeMux.HandleEvent nor the read loop contains a recover. -/
def muxDispatch (mux : ServeMux HandlerB) (event : JSON) : Except String Unit :=
  match mux.HandleEvent event with
  | .error e => .error e
  | .ok none => .ok ()
  | .ok (some h) => h event

/-- Whether the decoded event is a string-keyed map carrying a string
"type" field, the precondition under which the unchecked type assertions
in ServeMux.Handler (rtm.go line 82) do not panic. -/
def hasStringType : JSON → Bool
  | .obj fields =>
    match lookupField fields "type" with
    | some (.str _) => true
    | _ => false
  | _ => false

/-- C10: for every event value that is not a string-keyed map, or whose
"type" field is absent or not a string, ServeMux.Handler (and therefore
HandleEvent and any dispatch through the mux) faults via an unchecked
type assertion rather than treating the event as having no registered
handler. -/
theorem c10_type_assertion_faults {H : Type} (mux : ServeMux H)
    (mux2 : ServeMux HandlerB) (event : JSON)
    (hbad : hasStringType event = false) :
    (∃ e, ServeMux.Handler mux event = .error e) ∧
    (∃ e, ServeMux.HandleEvent mux event = .error e) ∧
    (∃ e, muxDispatch mux2 event = .error e) := by
  have key : ∀ {H' : Type} (mx : ServeMux H'),
      ∃ e, ServeMux.Handler mx event = .error e := by
    intro H' mx
    match event with
    | .null | .bool _ | .num _ | .str _ | .arr _ => exact ⟨_, rfl⟩
    | .obj fields =>
      match hlk : lookupField fields "type" with
      | none =>
        exact ⟨"interface conversion: missing type field",
          by simp [ServeMux.Handler, hlk]⟩
      | some (.str s) => simp [hasStringType, hlk] at hbad
      | some .null | some (.bool _) | some (.num _) | some (.arr _)
      | some (.obj _) =>
        exact ⟨"interface conversion: type field is not a string",
          by simp [ServeMux.Handler, hlk]⟩
  obtain ⟨e1, he1⟩ := key mux
  obtain ⟨e2, he2⟩ := key mux2
  refine ⟨⟨e1, he1⟩, ⟨e1, ?_⟩, ⟨e2, ?_⟩⟩
  · simp [ServeMux.HandleEvent, he1]
  · simp [muxDispatch, ServeMux.HandleEvent, he2]

/-- Witness for C10: an event that is a bare string (not a map) panics
the type assertion in Handler, HandleEvent and dispatch. -/
theorem c10_type_assertion_faults_witness :
    (∃ e, ServeMux.Handler ((NewServeMux : ServeMux Nat)) (.str "oops") = .error e) ∧
    (∃ e, ServeMux.HandleEvent ((NewServeMux : ServeMux Nat)) (.str "oops") = .error e) ∧
    (∃ e, muxDispatch NewServeMux (.str "oops") = .error e) :=
  c10_type_assertion_faults NewServeMux NewServeMux (.str "oops") rfl

/-- An outbound message: the Go map passed to Client.Write, a
string-keyed map of JSON-serializable values. -/
def OutMsg : Type := List (String × JSON)

/-- Assignment into an outbound message map (Go map assignment): the key
gets the new value, all other keys are unchanged. -/
def setField (m : OutMsg) (k : String) (v : JSON) : OutMsg :=
  (k, v) :: m.filter (fun kv => kv.1 != k)

/-- Client (rtm.go lines 131-134): the websocket handle and the outbound
sequence counter sendID (an int64, zero-valued at creation). -/
structure Client where
  ws : Option Nat
  sendID : Int

/-- A freshly created Client (Go zero value: nil socket, sendID 0). -/
def initClient : Client :=
  ⟨none, 0⟩

/-- Wrap-around of Go int64 addition, so that the sendID counter is
embedded with machine-integer semantics. -/
def int64Wrap (n : Int) : Int :=
  (n + 2 ^ 63) % 2 ^ 64 - 2 ^ 63

/-- Client.Write (rtm.go lines 212-221): set msg["id"] to the current
sendID, increment sendID, then serialize and send. The embedding returns
the message map as it stands at the json.Marshal call together with the
updated client. -/
def Client.Write (c : Client) (msg : OutMsg) : OutMsg × Client :=
  (setField msg "id" (.num c.sendID), ⟨c.ws, int64Wrap (c.sendID + 1)⟩)

/-- Client.WriteMsg (rtm.go lines 225-227): Write applied to the map
with type "message" and the given channel and text. -/
def Client.WriteMsg (c : Client) (channel text : String) : OutMsg × Client :=
  c.Write [("type", .str "message"), ("channel", .str channel), ("text", .str text)]

/-- Successive sequential Write calls on one client: the list of messages
as serialized, and the final client. -/
def runWrites (c : Client) : List OutMsg → List OutMsg × Client
  | [] => ([], c)
  | m :: ms =>
    let r := c.Write m
    let rest := runWrites r.2 ms
    (r.1 :: rest.1, rest.2)

theorem int64Wrap_of_lt (n : Nat) (h : n < 2 ^ 63) : int64Wrap n = n := by
  unfold int64Wrap
  omega

theorem lookupField_setField (m : OutMsg) (k : String) (v : JSON) :
    lookupField (setField m k v) k = some v := by
  simp [lookupField, setField, List.find?_cons]

theorem runWrites_id_eq (msgs : List OutMsg) (w : Option Nat) (n k : Nat)
    (hk : k < msgs.length) (hn : n + k < 2 ^ 63) :
    ((runWrites ⟨w, (n : Int)⟩ msgs).1.map (fun m => lookupField m "id"))[k]? =
      some (some (.num (n + k))) := by
  induction msgs generalizing n k with
  | nil => simp at hk
  | cons m ms ih =>
    rw [runWrites]
    cases k with
    | zero =>
      simp [Client.Write, lookupField_setField]
    | succ k' =>
      have hcast : int64Wrap ((n : Int) + 1) = ((n + 1 : Nat) : Int) := by
        push_cast
        exact_mod_cast int64Wrap_of_lt (n + 1) (by omega)
      have harith : (n : Int) + ((k' + 1 : Nat) : Int) = ((n + 1 : Nat) : Int) + (k' : Int) := by
        push_cast
        ring
      simp only [Client.Write, List.map_cons, List.getElem?_cons_succ]
      rw [hcast, harith]
      exact ih (n + 1) k' (by simpa using hk) (by omega)

/-- C5: on a single Client instance under sequential use, successive
Write calls assign "id" values equal to their position in the write
sequence (strictly increasing, no gaps), starting at the initial counter
value 0 (stated within the int64 range); WriteMsg(channel, text) is
exactly Write applied to the map with type "message" and the given
channel and text; the first outbound message of a fresh Client carries
id 0. -/
theorem c5_write_ids (msgs : List OutMsg) (k : Nat)
    (hk : k < msgs.length) (h63 : k < 2 ^ 63)
    (c : Client) (channel text : String) :
    ((runWrites initClient msgs).1.map (fun m => lookupField m "id"))[k]? =
      some (some (.num k)) ∧
    c.WriteMsg channel text =
      c.Write [("type", .str "message"), ("channel", .str channel),
        ("text", .str text)] ∧
    (∀ m : OutMsg, lookupField (initClient.Write m).1 "id" = some (.num 0)) := by
  refine ⟨?_, rfl, ?_⟩
  · have := runWrites_id_eq msgs none 0 k hk (by omega)
    simpa [initClient] using this
  · intro m
    simp [initClient, Client.Write, lookupField_setField]

/-- Witness for C5: three sequential writes on a fresh client; the third
message carries id 2, and WriteMsg "C123" "ready" is Write of the
message map. -/
theorem c5_write_ids_witness :
    ((runWrites initClient [[], [], []]).1.map (fun m => lookupField m "id"))[2]? =
      some (some (.num 2)) ∧
    initClient.WriteMsg "C123" "ready" =
      initClient.Write [("type", .str "message"), ("channel", .str "C123"),
        ("text", .str "ready")] ∧
    (∀ m : OutMsg, lookupField (initClient.Write m).1 "id" = some (.num 0)) :=
  c5_write_ids [[], [], []] 2 (by decide) (by norm_num) initClient "C123" "ready"

/-- The fixed capacity of the read buffer msg in Client.DialAndListen
(rtm.go line 178: msg := make of 4096 bytes). -/
def bufSize : Nat := 4096

/-- The result of one c.ws.Read(msg) call: the bytes the read placed at
the start of the buffer (the returned count is data.length) and whether
the read returned a non-nil error. -/
structure ReadResult where
  data : List Nat
  err : Bool

/-- The effect of c.ws.Read(msg) on the buffer: the returned bytes
overwrite the front of the buffer, the remainder keeps its previous
contents. Every read writes at offset 0 - the source never advances an
offset between reads. -/
def writeBuf (buf data : List Nat) : List Nat :=
  data ++ buf.drop data.length

/-- One processing step of the listen loop, as observed from outside:
a frame whose bytes failed json.Unmarshal and was ignored, or a decoded
event that was dispatched to the handler. -/
inductive LoopStep where
  | dropped (bytes : List Nat)
  | dispatched (event : JSON)

/-- Outcome of running the listen loop against a finite trace of socket
reads. The outer loop of rtm.go lines 184-207 contains no break and no
return, so the loop can only be still running when the trace is
exhausted (pending, blocked on the next read) or have been aborted by an
uncaught panic escaping a dispatch. -/
inductive LoopResult where
  | pending (steps : List LoopStep)
  | panicked (steps : List LoopStep) (msg : String)

/-- Prefix a completed step onto a loop outcome. -/
def LoopResult.prepend (s : LoopStep) : LoopResult → LoopResult
  | .pending steps => .pending (s :: steps)
  | .panicked steps m => .panicked (s :: steps) m

/-- The listen loop of Client.DialAndListen (rtm.go lines 184-207),
run against a finite trace of reads. The inner for loop keeps issuing
reads while the read count equals the full buffer capacity or the read
returned an error (line 186); each read overwrites the front of the
shared buffer. When a read returns fewer than bufSize bytes with no
error, msg[0:read] is passed to json.Unmarshal (modelled by the decode
parameter); a failed decode is logged and ignored, a decoded event is
dispatched through handler.HandleEvent (the dispatch parameter). There
is no recover anywhere on this path, so a dispatch panic aborts the
loop; there is no other exit. -/
def listenLoop (decode : List Nat → Option JSON) (dispatch : JSON → Except String Unit) :
    List Nat → List ReadResult → LoopResult
  | _, [] => .pending []
  | buf, r :: rs =>
    let buf2 := writeBuf buf r.data
    if r.data.length == bufSize || r.err then
      listenLoop decode dispatch buf2 rs
    else
      let frame := buf2.take r.data.length
      match decode frame with
      | none => (listenLoop decode dispatch buf2 rs).prepend (.dropped frame)
      | some event =>
        match dispatch event with
        | .error m => .panicked [] m
        | .ok _ => (listenLoop decode dispatch buf2 rs).prepend (.dispatched event)

theorem take_writeBuf (buf data : List Nat) :
    (writeBuf buf data).take data.length = data := by
  simp [writeBuf, List.take_left]

theorem listenLoop_full_or_err (decode : List Nat → Option JSON)
    (dispatch : JSON → Except String Unit) (buf : List Nat) (r : ReadResult)
    (rs : List ReadResult) (h : (r.data.length == bufSize || r.err) = true) :
    listenLoop decode dispatch buf (r :: rs) =
      listenLoop decode dispatch (writeBuf buf r.data) rs := by
  rw [listenLoop]
  simp only [h, if_true]

theorem listenLoop_complete (decode : List Nat → Option JSON)
    (dispatch : JSON → Except String Unit) (buf : List Nat) (r : ReadResult)
    (rs : List ReadResult) (h : (r.data.length == bufSize || r.err) = false) :
    listenLoop decode dispatch buf (r :: rs) =
      match decode r.data with
      | none => (listenLoop decode dispatch (writeBuf buf r.data) rs).prepend
          (.dropped r.data)
      | some event =>
        match dispatch event with
        | .error m => .panicked [] m
        | .ok _ => (listenLoop decode dispatch (writeBuf buf r.data) rs).prepend
            (.dispatched event) := by
  rw [listenLoop]
  simp only [h, if_false, Bool.false_eq_true, take_writeBuf]

/-- The buffer msg at loop start (make allocates zero bytes). -/
def initialBuf : List Nat := List.replicate bufSize 0

/-- A 4096-byte first chunk of an oversized frame. -/
def chunk1 : List Nat := List.replicate bufSize 1

/-- The 904-byte final chunk of the same 5000-byte frame. -/
def chunk2 : List Nat := List.replicate 904 2

/-- The event that the full 5000-byte frame decodes to. -/
def bigEvent : JSON := .obj [("type", .str "bigmsg")]

/-- A decoder for which the concatenation of the two chunks is the only
well-formed frame (as for a 5000-byte JSON object: no proper chunk of it
is valid JSON on its own). -/
def bigDecode : List Nat → Option JSON := fun bs =>
  if bs = chunk1 ++ chunk2 then some bigEvent else none

/-- A handler behaviour that always returns normally. -/
def dispatchOk : JSON → Except String Unit := fun _ => .ok ()

/-- Counterexample to C1: a 5000-byte frame delivered as reads of 4096
and 904 bytes is NOT reassembled; the loop decodes only the last 904
bytes (which fail to decode) and drops the frame, although the
concatenation of the chunks decodes to one event. No event is ever
dispatched. -/
theorem c1_counterexample :
    bigDecode (chunk1 ++ chunk2) = some bigEvent ∧
    listenLoop bigDecode dispatchOk initialBuf
      [⟨chunk1, false⟩, ⟨chunk2, false⟩] = .pending [.dropped chunk2] := by
  constructor
  · exact if_pos rfl
  · have h1 : ((⟨chunk1, false⟩ : ReadResult).data.length == bufSize
        || (⟨chunk1, false⟩ : ReadResult).err) = true := by
      simp only [chunk1, List.length_replicate, beq_self_eq_true, Bool.true_or]
    have h2 : ((⟨chunk2, false⟩ : ReadResult).data.length == bufSize
        || (⟨chunk2, false⟩ : ReadResult).err) = false := by
      simp only [chunk2, bufSize, List.length_replicate, Bool.or_false]
      decide
    rw [listenLoop_full_or_err _ _ _ _ _ h1, listenLoop_complete _ _ _ _ _ h2]
    have hne : chunk2 ≠ chunk1 ++ chunk2 := by
      intro h
      have hlen := congrArg List.length h
      simp only [chunk1, chunk2, bufSize, List.length_append,
        List.length_replicate] at hlen
      omega
    have hdec : bigDecode chunk2 = none := if_neg hne
    simp only [hdec, listenLoop, LoopResult.prepend]

/-- C1 as amended: when a frame arrives as a full-capacity read followed
by a shorter read, the loop does not append: each read overwrites the
front of the one buffer, so after draining, only the bytes of the final read
(the last chunk alone) are passed to the decoder; the first chunk yields
no event of its own. -/
theorem c1_amended_last_chunk_only (decode : List Nat → Option JSON)
    (dispatch : JSON → Except String Unit) (buf : List Nat)
    (r1 r2 : ReadResult) (rs : List ReadResult)
    (h1 : r1.data.length = bufSize) (e1 : r1.err = false)
    (h2 : ¬ r2.data.length = bufSize) (e2 : r2.err = false) :
    listenLoop decode dispatch buf (r1 :: r2 :: rs) =
      match decode r2.data with
      | none => (listenLoop decode dispatch
          (writeBuf (writeBuf buf r1.data) r2.data) rs).prepend (.dropped r2.data)
      | some event =>
        match dispatch event with
        | .error m => .panicked [] m
        | .ok _ => (listenLoop decode dispatch
            (writeBuf (writeBuf buf r1.data) r2.data) rs).prepend
              (.dispatched event) := by
  rw [listenLoop_full_or_err _ _ _ _ _ (by simp [h1, e1]),
    listenLoop_complete _ _ _ _ _ (by simp [h2, e2])]

/-- Witness for the amended C1: a full 4096-byte read followed by a
1-byte read; the decoder sees only the final byte and the frame is
dropped. -/
theorem c1_amended_last_chunk_only_witness :
    listenLoop (fun _ => none) dispatchOk initialBuf
      [⟨List.replicate bufSize 9, false⟩, ⟨[5], false⟩] =
      .pending [.dropped [5]] := by
  rw [c1_amended_last_chunk_only (fun _ => none) dispatchOk initialBuf
    ⟨List.replicate bufSize 9, false⟩ ⟨[5], false⟩ []
    (by simp only [List.length_replicate]) rfl (by decide) rfl]
  simp only [listenLoop, LoopResult.prepend]

/-- The well-formed frame used below, and a decoder that accepts only the
byte string [7]. -/
def nextEvent : JSON := .obj [("type", .str "next")]

def decodeSeven : List Nat → Option JSON := fun bs =>
  if bs = [7] then some nextEvent else none

/-- Counterexample to C2: a read that returns an error does not terminate
the loop and no error is returned to the caller: the inner read loop
retries, and the frame delivered by the following successful read is
still decoded and dispatched (the error is swallowed). The outer loop of
rtm.go lines 184-207 has no exit at all, which is why LoopResult has no
returned-error outcome. -/
theorem c2_counterexample :
    listenLoop decodeSeven dispatchOk initialBuf
      [⟨[], true⟩, ⟨[7], false⟩] = .pending [.dispatched nextEvent] := by
  rw [listenLoop_full_or_err _ _ _ _ _ (by simp),
    listenLoop_complete _ _ _ _ _ (by simp [bufSize])]
  have hdec : decodeSeven [7] = some nextEvent := by
    simp [decodeSeven]
  simp [hdec, dispatchOk, listenLoop, LoopResult.prepend]

/-- C2 as amended: a socket read error inside the listen loop is retried,
not propagated: while a read returns a non-nil error the inner loop of
rtm.go line 186 issues the next read (sleeping when the errored read
returned zero bytes), so the loop continues with the rest of the read
trace and never returns the error. -/
theorem c2_amended_read_error_retried (decode : List Nat → Option JSON)
    (dispatch : JSON → Except String Unit) (buf : List Nat)
    (r : ReadResult) (rs : List ReadResult) (he : r.err = true) :
    listenLoop decode dispatch buf (r :: rs) =
      listenLoop decode dispatch (writeBuf buf r.data) rs :=
  listenLoop_full_or_err _ _ _ _ _ (by simp [he])

/-- Witness for the amended C2: an erroring empty read is skipped and the
loop goes on with the remaining trace. -/
theorem c2_amended_read_error_retried_witness :
    listenLoop decodeSeven dispatchOk initialBuf [⟨[], true⟩, ⟨[7], false⟩] =
      listenLoop decodeSeven dispatchOk (writeBuf initialBuf []) [⟨[7], false⟩] :=
  c2_amended_read_error_retried decodeSeven dispatchOk initialBuf ⟨[], true⟩
    [⟨[7], false⟩] rfl

/-- C6: for every inbound frame whose bytes fail JSON decoding, the
listen loop logs and discards the frame without terminating: no handler
is invoked for it, no error is returned, and the next well-formed frame
is still decoded and dispatched. -/
theorem c6_malformed_frame_skipped (decode : List Nat → Option JSON)
    (dispatch : JSON → Except String Unit) (buf : List Nat)
    (r r' : ReadResult) (ev : JSON)
    (h1 : (r.data.length == bufSize || r.err) = false)
    (h2 : (r'.data.length == bufSize || r'.err) = false)
    (hbad : decode r.data = none)
    (hgood : decode r'.data = some ev)
    (hdisp : dispatch ev = .ok ()) :
    listenLoop decode dispatch buf [r, r'] =
      .pending [.dropped r.data, .dispatched ev] := by
  rw [listenLoop_complete _ _ _ _ _ h1]
  simp only [hbad]
  rw [listenLoop_complete _ _ _ _ _ h2]
  simp [hgood, hdisp, listenLoop, LoopResult.prepend]

/-- Witness for C6: the malformed frame [9] is dropped and the following
well-formed frame [7] is still dispatched. -/
theorem c6_malformed_frame_skipped_witness :
    listenLoop decodeSeven dispatchOk initialBuf
      [⟨[9], false⟩, ⟨[7], false⟩] =
      .pending [.dropped [9], .dispatched nextEvent] :=
  c6_malformed_frame_skipped decodeSeven dispatchOk initialBuf
    ⟨[9], false⟩ ⟨[7], false⟩ nextEvent (by decide) (by decide)
    (by simp [decodeSeven]) (by simp [decodeSeven]) rfl

/-- The faulting handler scenario of C3: a handler registered for type
"boom" panics during dispatch; "next" has a well-behaved handler. -/
def boomEvent : JSON := .obj [("type", .str "boom")]

def panickingHandler : HandlerB := fun _ => .error "panic: boom"

def okHandler : HandlerB := fun _ => .ok ()

def crashMux : ServeMux HandlerB :=
  (NewServeMux.Handle "boom" panickingHandler).Handle "next" okHandler

def crashDecode : List Nat → Option JSON := fun bs =>
  if bs = [1] then some boomEvent else if bs = [2] then some nextEvent else none

/-- C3 evaluated at the failing input: the code does NOT catch a handler
panic at the dispatch boundary. Dispatching the "boom" event panics, the
panic propagates out of the read loop (there is no recover on the path,
despite the contract documented on the Handler interface, rtm.go lines
119-122), and the following well-formed frame - which would decode and
dispatch fine - is never processed. -/
theorem c3_panic_escapes_loop :
    muxDispatch crashMux boomEvent = .error "panic: boom" ∧
    crashDecode [2] = some nextEvent ∧
    listenLoop crashDecode (muxDispatch crashMux) initialBuf
      [⟨[1], false⟩, ⟨[2], false⟩] = .panicked [] "panic: boom" := by
  have hboom : muxDispatch crashMux boomEvent = .error "panic: boom" := by
    simp [muxDispatch, ServeMux.HandleEvent, ServeMux.Handler, crashMux,
      ServeMux.Handle, NewServeMux, boomEvent, lookupField, panickingHandler]
  refine ⟨hboom, by simp [crashDecode], ?_⟩
  rw [listenLoop_complete _ _ _ _ _ (by decide)]
  have hdec : crashDecode [1] = some boomEvent := by
    simp [crashDecode]
  simp [hdec, hboom]

/-- The keepalive idle interval: 25 seconds (rtm.go line 179). -/
def watchdogInterval : Nat := 25

/-- The message the watchdog callback writes (rtm.go line 180): it calls
c.Write on the map with the single field type "ping". -/
def pingMsg : OutMsg := [("type", .str "ping")]

/-- One-shot timer semantics of the watchdog. time.AfterFunc arms a
single-shot timer whose callback runs once when the deadline passes
without intervening Reset; watchdog.Reset re-arms it for a full interval
(rtm.go lines 179-181 and 197, where Reset runs at every completed frame
read). Given the armed deadline and the increasing absolute times of the
frame receipts that run Reset, pingTimes returns the times at which the
ping callback runs: a ping fires exactly when an armed deadline passes
before the next receipt (or when no further frame ever arrives), and the
fired timer stays disarmed until the next receipt re-arms it. -/
def pingTimes : Nat → List Nat → List Nat
  | deadline, [] => [deadline]
  | deadline, t :: ts =>
    if deadline < t then deadline :: pingTimes (t + watchdogInterval) ts
    else pingTimes (t + watchdogInterval) ts

/-- The ping times over a whole listen-loop run: the watchdog is armed
for one interval at loop start (time 0). -/
def watchdogPings (frameTimes : List Nat) : List Nat :=
  pingTimes watchdogInterval frameTimes

/-- C8: the keepalive watchdog is armed for a 25-second idle interval at
listen-loop start; every frame receipt (so in particular every
successful decode) re-arms it for a full interval; a frame inside the
armed interval yields no ping; a gap longer than the interval yields
exactly one ping, fired at the old deadline, before the next frame; when
no further frame arrives the armed timer fires exactly once; and the
fired write is of a message of type "ping". -/
theorem c8_watchdog_ping :
    watchdogInterval = 25 ∧
    (∀ ts, watchdogPings ts = pingTimes (0 + watchdogInterval) ts) ∧
    (∀ d t ts, ¬ d < t →
      pingTimes d (t :: ts) = pingTimes (t + watchdogInterval) ts) ∧
    (∀ d t ts, d < t →
      pingTimes d (t :: ts) = d :: pingTimes (t + watchdogInterval) ts) ∧
    (∀ d, pingTimes d [] = [d]) ∧
    (∀ c : Client, lookupField (c.Write pingMsg).1 "type" = some (.str "ping")) := by
  refine ⟨rfl, fun ts => rfl, ?_, ?_, fun d => rfl, ?_⟩
  · intro d t ts h
    rw [pingTimes, if_neg h]
  · intro d t ts h
    rw [pingTimes, if_pos h]
  · intro c
    simp [Client.Write, setField, pingMsg, lookupField]

/-- Witness for C8: with the timer armed at 25 and a frame at time 10,
no ping fires and the timer is re-armed for 35; with the next frame only
at time 80, exactly one ping fires at 35; with no further frame, one
last ping fires at 105. The whole trace yields pings at 35 and 105
only. -/
theorem c8_watchdog_ping_witness :
    pingTimes 25 [10] = pingTimes 35 [] ∧
    pingTimes 35 [80] = 35 :: pingTimes 105 [] ∧
    pingTimes 105 [] = [105] ∧
    watchdogPings [10, 80] = [35, 105] ∧
    lookupField (initClient.Write pingMsg).1 "type" = some (.str "ping") := by
  refine ⟨c8_watchdog_ping.2.2.1 25 10 [] (by decide),
    c8_watchdog_ping.2.2.2.1 35 80 [] (by decide), c8_watchdog_ping.2.2.2.2.1 105,
    ?_, c8_watchdog_ping.2.2.2.2.2 initClient⟩
  decide

/-- StartResponse (rtm.go lines 254-262): the decoded response of the
rtm.start handshake endpoint. -/
structure StartResponse where
  ok : Bool
  error : String
  url : String

/-- The handshake phase of Client.DialAndListen (rtm.go lines 143-175),
up to the point where the read loop would start. The HTTP GET of
rtm.start, json.Unmarshal of its body and websocket.Dial are external
effects, passed as the httpResp, unmarshal and wsDial parameters (each
Except with the error it may return). The phase returns the error
DialAndListen would return, paired with the client as mutated so far:
on an HTTP, decode or not-ok failure the client is untouched (the
function returns before the websocket.Dial assignment); the
websocket.Dial assignment sets c.ws even when the dial fails (to the nil
connection, here none). -/
def dialPhase (c : Client) (httpResp : Except String (List Nat))
    (unmarshal : List Nat → Except String StartResponse)
    (wsDial : String → Except String Nat) : Except String Unit × Client :=
  match httpResp with
  | .error e => (.error e, c)
  | .ok body =>
    match unmarshal body with
    | .error e => (.error e, c)
    | .ok r =>
      if r.ok then
        match wsDial r.url with
        | .error e => (.error e, ⟨none, c.sendID⟩)
        | .ok sock => (.ok (), ⟨some sock, c.sendID⟩)
      else (.error ("RTM API was not OK to start stream: " ++ r.error), c)

/-- C9: for every handshake response that decodes successfully but whose
ok flag is false, DialAndListen returns an error carrying the
service-provided error string, does not dial the socket (the outcome is
the same for every wsDial), does not enter the read loop (the result is
an error, not ok), and leaves the connection state of the Client
unchanged. -/
theorem c9_handshake_rejected (c : Client) (body : List Nat)
    (unmarshal : List Nat → Except String StartResponse)
    (wsDial wsDial' : String → Except String Nat) (r : StartResponse)
    (hu : unmarshal body = .ok r) (hok : r.ok = false) :
    dialPhase c (.ok body) unmarshal wsDial =
      (.error ("RTM API was not OK to start stream: " ++ r.error), c) ∧
    dialPhase c (.ok body) unmarshal wsDial =
      dialPhase c (.ok body) unmarshal wsDial' := by
  have key : ∀ d : String → Except String Nat,
      dialPhase c (.ok body) unmarshal d =
        (.error ("RTM API was not OK to start stream: " ++ r.error), c) := by
    intro d
    simp [dialPhase, hu, hok]
  exact ⟨key wsDial, (key wsDial).trans (key wsDial').symm⟩

/-- Witness for C9: a handshake response rejected with "invalid_auth";
even a wsDial that would succeed is never consulted. -/
theorem c9_handshake_rejected_witness :
    dialPhase initClient (.ok [0])
      (fun _ => .ok ⟨false, "invalid_auth", "wss://x"⟩) (fun _ => .ok 1) =
      (.error ("RTM API was not OK to start stream: " ++ "invalid_auth"),
        initClient) ∧
    dialPhase initClient (.ok [0])
      (fun _ => .ok ⟨false, "invalid_auth", "wss://x"⟩) (fun _ => .ok 1) =
      dialPhase initClient (.ok [0])
        (fun _ => .ok ⟨false, "invalid_auth", "wss://x"⟩) (fun _ => .error "down") :=
  c9_handshake_rejected initClient [0]
    (fun _ => .ok ⟨false, "invalid_auth", "wss://x"⟩) (fun _ => .ok 1)
    (fun _ => .error "down") ⟨false, "invalid_auth", "wss://x"⟩ rfl rfl
